import Mathlib

set_option maxHeartbeats 1000000

/-!
Shallow embedding of srclib's `plan/makefile.go` (package `plan`): the rule-maker
registry (`RegisterRuleMaker`), the cached-copy rule (`cachedRule`), and the build
plan assembler (`CreateMakefile`) with its per-batch cache rewriting step.

Modelling conventions:
* Go runtime panics are modelled as `Except.error` values carrying a message that
  names the panic kind; panics are kept apart from Go `error` returns by the
  `Failure` type (`Failure.panicked` vs `Failure.goError`).
* `strings.Split s "/"` is the structural `splitSlash s` (same semantics as
  `String.splitOn s "/"`), `strings.Join` is `String.intercalate`, and Go's `len`
  of a string (a byte count) is `String.utf8ByteSize`.
* The external collaborators that `CreateMakefile` calls but that live outside
  this file (`listRevisions`, `buildstore.BuildDataExistsForCommit`,
  `changedFilesFromCurrentRev`) are abstracted as an oracle record `VCS`.
-/

/-- Modelled from the spec: `unit.SourceUnit` is declared outside this file; the only
field `plan/makefile.go` reads is `CachedRev`, "the commit at which its output was
last computed and is still considered valid (empty = always recompute)". -/
structure SourceUnit where
  CachedRev : String
deriving DecidableEq, Repr

/-- A rule as it can be produced by an external rule maker, i.e. a value of the
`makex.Rule` interface (`Target`, `Prereqs`, `Recipes`) possibly also implementing
the `SourceUnit() *unit.SourceUnit` accessor. `withUnit` with `u = none` models a
rule whose accessor exists but returns a nil pointer. External packages cannot
construct the unexported `plan.cachedRule`, so it is not a constructor here. -/
inductive SrcRule where
  | basic (target : String) (prereqs recipes : List String)
  | withUnit (target : String) (prereqs recipes : List String) (u : Option SourceUnit)
deriving DecidableEq, Repr

def SrcRule.Target : SrcRule → String
  | .basic t _ _ => t
  | .withUnit t _ _ _ => t

def SrcRule.Prereqs : SrcRule → List String
  | .basic _ ps _ => ps
  | .withUnit _ ps _ _ => ps

def SrcRule.Recipes : SrcRule → List String
  | .basic _ _ rs => rs
  | .withUnit _ _ rs _ => rs

/-- A rule held in the assembled plan: either an externally produced rule, or the
package-private `cachedRule` (fields in source order: `cachedPath`, `target`,
`unit`, `prereqs`). -/
inductive Rule where
  | src (r : SrcRule)
  | cached (cachedPath : String) (target : String) (u : SourceUnit) (prereqs : List String)
deriving DecidableEq, Repr

def Rule.Target : Rule → String
  | .src r => r.Target
  | .cached _ t _ _ => t

def Rule.Prereqs : Rule → List String
  | .src r => r.Prereqs
  | .cached _ _ _ ps => ps

/-- Recipes of a plan rule. For `cachedRule` this is the single recipe
`fmt.Sprintf("cp %s %s", r.cachedPath, r.target)`. -/
def Rule.Recipes : Rule → List String
  | .src r => r.Recipes
  | .cached cp t _ _ => ["cp " ++ cp ++ " " ++ t]

def Rule.isCached : Rule → Bool
  | .src _ => false
  | .cached _ _ _ _ => true

/-- Options from `plan/makefile.go`: `ToolchainExecOpt` is passed through to rule
makers unchanged; `NoCache` forces a full rebuild. -/
structure Options where
  ToolchainExecOpt : String
  NoCache : Bool
deriving DecidableEq, Repr

/-- `config.Tree` is opaque to `plan/makefile.go`: it is only passed through to the
rule makers. -/
abbrev ConfigTree := Unit

/-- `RuleMaker` from the source:
`func(c *config.Tree, dataDir string, existing []makex.Rule, opt Options) ([]makex.Rule, error)`.
A returned Go error is `Except.error`. -/
abbrev RuleMaker := ConfigTree → String → List Rule → Options → Except String (List SrcRule)

/-- The three package-level registry variables of `plan/makefile.go`:
`RuleMakers` (a map, modelled as an association list), `ruleMakerNames` and
`orderedRuleMakers` (parallel lists in registration order). -/
structure Registry where
  RuleMakers : List (String × RuleMaker)
  ruleMakerNames : List String
  orderedRuleMakers : List RuleMaker

/-- `RegisterRuleMaker` from the source. A panic is modelled as `Except.error`
carrying the panic message. The source checks, in order: duplicate name, then nil
maker. It performs no check for an empty name. -/
def RegisterRuleMaker (reg : Registry) (name : String) (r : Option RuleMaker) :
    Except String Registry :=
  if (reg.RuleMakers.lookup name).isSome then
    .error ("build: Register called twice for target lister " ++ name)
  else
    match r with
    | none => .error "build: Register target is nil"
    | some f =>
      .ok ⟨reg.RuleMakers ++ [(name, f)], reg.ruleMakerNames ++ [name],
        reg.orderedRuleMakers ++ [f]⟩

/-- Modelled from the spec: the external collaborators called by `CreateMakefile`
that are defined outside this file — "a build-output store answering does output
exist for commit X" and "a VCS facility returning an ordered revision list and a
file-level diff between two revisions". `buildDataExists` discards the error just
as the call site does (`exist, _ :=`). -/
structure VCS where
  listRevisions : Except String (List String)
  buildDataExists : String → Bool
  changedFilesFromCurrentRev : String → Except String (List String)

/-- The candidate-scanning loop of `CreateMakefile` (`for i := 1; ...`): skips
revisions without build data, breaks on a diff failure, and otherwise overwrites
the accumulator `(prevRev, changedFiles)` and keeps scanning. -/
def scanLoop (ext : VCS) : List String → String × List String → String × List String
  | [], acc => acc
  | rev :: rest, acc =>
    if ext.buildDataExists rev then
      match ext.changedFilesFromCurrentRev rev with
      | .error _ => acc
      | .ok files => scanLoop ext rest (rev, files)
    else
      scanLoop ext rest acc

/-- The whole previous-revision scan: on a revision-listing error the zero values
`("", [])` are kept (the error is only logged); otherwise the first revision
(HEAD) is skipped and the remaining candidates are scanned. -/
def scanPrevRev (ext : VCS) : String × List String :=
  match ext.listRevisions with
  | .error _ => ("", [])
  | .ok revs => scanLoop ext (revs.drop 1) ("", [])

/-- Message of the Go runtime panic raised by the out-of-range slice `p[0:2]`
(and index `p[1]`) when the split target has fewer than two segments. -/
def sliceRangePanic : String := "runtime error: slice bounds out of range"

/-- Message of the Go runtime panic raised by dereferencing a nil
`*unit.SourceUnit` in `u.CachedRev`. -/
def nilUnitPanic : String := "runtime error: invalid memory address or nil pointer dereference"

/-- Go's `strings.Split s "/"`, by structural recursion over the characters:
split at every slash and keep empty segments, so the result is `[s]` when `s`
contains no slash (and `[""]` for the empty string). -/
def splitSlashChars : List Char → List (List Char)
  | [] => [[]]
  | c :: cs =>
    if c = '/' then [] :: splitSlashChars cs
    else
      match splitSlashChars cs with
      | [] => [[c]]
      | seg :: rest => (c :: seg) :: rest

def splitSlash (s : String) : List String :=
  (splitSlashChars s.data).map List.asString

/-- The cached-artifact path derivation of `CreateMakefile` (lines 133-141):
split the target on "/"; if `len(p) > 2` short-circuits the condition, rewrite
`p[1]`; otherwise Go evaluates `p[0:2]`, which panics when `len(p) < 2`; with
exactly two segments, rewrite `p[1]` when the first two segments joined equal
`buildDataDir` or the second segment is 40 bytes long, else prefix with
`".."` and the cached revision. -/
def cachedPathFor (buildDataDir cachedRev target : String) : Except String String :=
  let p := splitSlash target
  if 2 < p.length then
    .ok (String.intercalate "/" (p.set 1 cachedRev))
  else if p.length < 2 then
    .error sliceRangePanic
  else if String.intercalate "/" (p.take 2) = buildDataDir ∨ (p.getD 1 "").utf8ByteSize = 40 then
    .ok (String.intercalate "/" (p.set 1 cachedRev))
  else
    .ok (String.intercalate "/" (".." :: cachedRev :: p))

/-- One iteration of the rule-replacement loop (lines 117-148): rules without the
`SourceUnit` accessor pass through; the accessor's result is dereferenced without
a nil check; an empty `CachedRev` passes through; otherwise the rule is replaced
by a `cachedRule` with the derived path, original target and original prereqs. -/
def rewriteRule (buildDataDir : String) : SrcRule → Except String Rule
  | .basic t ps rs => .ok (.src (.basic t ps rs))
  | .withUnit _ _ _ none => .error nilUnitPanic
  | .withUnit t ps rs (some u) =>
    if u.CachedRev = "" then
      .ok (.src (.withUnit t ps rs (some u)))
    else
      match cachedPathFor buildDataDir u.CachedRev t with
      | .error e => .error e
      | .ok cp => .ok (.cached cp t u ps)

/-- The rule-replacement loop over a whole batch; a panic aborts at the first
offending rule. -/
def rewriteRules (buildDataDir : String) : List SrcRule → Except String (List Rule)
  | [] => .ok []
  | r :: rs =>
    match rewriteRule buildDataDir r with
    | .error e => .error e
    | .ok r2 =>
      match rewriteRules buildDataDir rs with
      | .error e => .error e
      | .ok rs2 => .ok (r2 :: rs2)

/-- The whole `!opt.NoCache` block of `CreateMakefile`: the previous-revision scan
runs first, but its result (`prevRev`, `changedFiles`) is never read afterwards —
the replacement loop is driven solely by each rule's `CachedRev`. -/
def cacheRewrite (ext : VCS) (buildDataDir : String) (rules : List SrcRule) :
    Except String (List Rule) :=
  let _prev := scanPrevRev ext
  rewriteRules buildDataDir rules

/-- How a run of `CreateMakefile` can fail: a Go error value returned to the
caller, or a runtime panic. -/
inductive Failure where
  | goError (msg : String)
  | panicked (msg : String)
deriving DecidableEq, Repr

/-- The maker loop of `CreateMakefile` (lines 83-152): invoke each registered
maker in order with the rules accumulated so far; a maker error aborts with the
maker's name prepended; otherwise the batch is cache-rewritten unless
`opt.NoCache`, and appended to the accumulator. -/
def makeRules (ext : VCS) (buildDataDir : String) (c : ConfigTree) (opt : Options) :
    List (String × RuleMaker) → List Rule → Except Failure (List Rule)
  | [], allRules => .ok allRules
  | (name, r) :: rest, allRules =>
    match r c buildDataDir allRules opt with
    | .error err => .error (.goError ("rule maker " ++ name ++ ": " ++ err))
    | .ok rules =>
      match (if !opt.NoCache then cacheRewrite ext buildDataDir rules
             else .ok (rules.map Rule.src)) with
      | .error e => .error (.panicked e)
      | .ok rules2 => makeRules ext buildDataDir c opt rest (allRules ++ rules2)

/-- Modelled from the spec: `filepath.Join(buildstore.BuildDataDirName, commitID)`
with `buildstore.BuildDataDirName` defined outside this file; for slash-free,
non-empty components `filepath.Join` concatenates them with "/". -/
def filepathJoin (a b : String) : String := a ++ "/" ++ b

/-- The makefile returned by `CreateMakefile` (`makex.Makefile{Rules: allRules}`). -/
structure Makefile where
  Rules : List Rule
deriving DecidableEq, Repr

/-- `CreateMakefile` from the source: derive the build-data directory, run the
maker loop, prepend the synthetic "all" rule whose prereqs are every accumulated
target in order, and append the ".DELETE_ON_ERROR" marker rule. The registry is
a parameter (the source reads package-level variables); `vcsType` is accepted and,
as in the source, never used (the scan reads `currentRepo.VCSType`, folded into
the `VCS` oracle). -/
def CreateMakefile (reg : Registry) (ext : VCS) (buildDataDirName commitID _vcsType : String)
    (c : ConfigTree) (opt : Options) : Except Failure Makefile :=
  let buildDataDir := filepathJoin buildDataDirName commitID
  match makeRules ext buildDataDir c opt (reg.ruleMakerNames.zip reg.orderedRuleMakers) [] with
  | .error f => .error f
  | .ok allRules =>
    let allTargets := allRules.map Rule.Target
    .ok ⟨Rule.src (.basic "all" allTargets []) :: allRules ++
      [Rule.src (.basic ".DELETE_ON_ERROR" [] [])]⟩

/-- The cached-artifact path exactly as claim C2 words it: "if the Target has more
than two segments, or its first two segments joined equal the build-data
directory, or its second segment is exactly 40 characters long, then the second
segment is replaced by R in place; otherwise the path is prefixed with the two
segments dot-dot and R". Written from the claim, for comparison with
`cachedPathFor`. -/
def specCachedPath (buildDataDir cachedRev target : String) : String :=
  let p := splitSlash target
  if 2 < p.length ∨ String.intercalate "/" (p.take 2) = buildDataDir ∨
      (p.getD 1 "").utf8ByteSize = 40 then
    String.intercalate "/" (p.set 1 cachedRev)
  else
    String.intercalate "/" (".." :: cachedRev :: p)

/-- Boolean success test for `Except`. -/
def exceptIsOk : Except ε α → Bool
  | .ok _ => true
  | .error _ => false

/-- Concrete oracle whose revision listing fails (so no prior revision is ever
selected by the scan). -/
def vcs0 : VCS := ⟨.error "x", fun _ => false, fun _ => .error "x"⟩

def tree0 : ConfigTree := ()

def optCache : Options := ⟨"", false⟩

def noMaker : RuleMaker := fun _ _ _ _ => .ok []

def failMaker : RuleMaker := fun _ _ _ _ => .error "boom"

/-- Maker producing one rule whose source unit has a non-empty CachedRev. -/
def cachedMaker : RuleMaker := fun _ _ _ _ =>
  .ok [SrcRule.withUnit "x/y" [] ["gen"] (some ⟨"R"⟩)]

def reg0 : Registry := ⟨[], [], []⟩

def reg1 : Registry := ⟨[("a", noMaker)], ["a"], [noMaker]⟩

def reg2 : Registry := ⟨[("bad", failMaker)], ["bad"], [failMaker]⟩

def reg3 : Registry := ⟨[("m", cachedMaker)], ["m"], [cachedMaker]⟩

def optNoCache : Options := ⟨"", true⟩

/-- The makefile produced from `reg3` with caching disabled. -/
def mfNC : Makefile :=
  ⟨[Rule.src (.basic "all" ["x/y"] []),
    Rule.src (.withUnit "x/y" [] ["gen"] (some ⟨"R"⟩)),
    Rule.src (.basic ".DELETE_ON_ERROR" [] [])]⟩

/-- A successful per-rule rewrite preserves the rule's target and prereqs. -/
theorem rewriteRule_Target_Prereqs (bdd : String) (r : SrcRule) (r2 : Rule)
    (h : rewriteRule bdd r = .ok r2) :
    r2.Target = r.Target ∧ r2.Prereqs = r.Prereqs := by
  cases r with
  | basic t ps rcps =>
    simp only [rewriteRule, Except.ok.injEq] at h
    subst h
    exact ⟨rfl, rfl⟩
  | withUnit t ps rcps u =>
    cases u with
    | none => simp [rewriteRule] at h
    | some u =>
      by_cases hc : u.CachedRev = ""
      · simp only [rewriteRule, if_pos hc, Except.ok.injEq] at h
        subst h
        exact ⟨rfl, rfl⟩
      · simp only [rewriteRule, if_neg hc] at h
        cases hcp : cachedPathFor bdd u.CachedRev t with
        | error e => rw [hcp] at h; cases h
        | ok cp =>
          rw [hcp] at h
          simp only [Except.ok.injEq] at h
          subst h
          exact ⟨rfl, rfl⟩

/-- A successful batch rewrite preserves the lists of targets and of prereqs. -/
theorem rewriteRules_map_Target_Prereqs (bdd : String) (rules : List SrcRule)
    (out : List Rule) (h : rewriteRules bdd rules = .ok out) :
    out.map Rule.Target = rules.map SrcRule.Target ∧
      out.map Rule.Prereqs = rules.map SrcRule.Prereqs := by
  induction rules generalizing out with
  | nil =>
    simp only [rewriteRules, Except.ok.injEq] at h
    subst h
    exact ⟨rfl, rfl⟩
  | cons r rstl ih =>
    cases h1 : rewriteRule bdd r with
    | error e => simp [rewriteRules, h1] at h
    | ok r2 =>
      cases h2 : rewriteRules bdd rstl with
      | error e => simp [rewriteRules, h1, h2] at h
      | ok rs2 =>
        simp only [rewriteRules, h1, h2, Except.ok.injEq] at h
        subst h
        obtain ⟨ht, hp⟩ := ih rs2 h2
        obtain ⟨ht1, hp1⟩ := rewriteRule_Target_Prereqs bdd r r2 h1
        simp [ht, hp, ht1, hp1]

/-- When the path derivation succeeds, the derived path is exactly the one the
spec describes. -/
theorem cachedPathFor_ok_eq_spec (bdd rev t cp : String)
    (h : cachedPathFor bdd rev t = .ok cp) : cp = specCachedPath bdd rev t := by
  simp only [cachedPathFor] at h
  simp only [specCachedPath]
  split at h
  · rename_i hlen
    simp only [Except.ok.injEq] at h
    rw [if_pos (Or.inl hlen)]
    exact h.symm
  · split at h
    · cases h
    · split at h
      · rename_i hcond
        simp only [Except.ok.injEq] at h
        rw [if_pos (Or.inr hcond)]
        exact h.symm
      · rename_i hgt hlt hcond
        simp only [Except.ok.injEq] at h
        rw [if_neg (by push_neg; push_neg at hcond; exact ⟨by omega, hcond.1, hcond.2⟩)]
        exact h.symm

/-- A split target with a single segment makes the path derivation panic. -/
theorem cachedPathFor_single_segment (bdd rev t : String)
    (h1 : (splitSlash t).length = 1) :
    cachedPathFor bdd rev t = .error sliceRangePanic := by
  simp only [cachedPathFor]
  rw [if_neg (by omega), if_pos (by omega)]

/-- With at least two segments, the path derivation always succeeds. -/
theorem cachedPathFor_total (bdd rev t : String)
    (h2 : 2 ≤ (splitSlash t).length) :
    exceptIsOk (cachedPathFor bdd rev t) = true := by
  simp only [cachedPathFor]
  split
  · rfl
  · split
    · exfalso; omega
    · split
      · rfl
      · rfl

/-- Index-wise content of a successful batch rewrite at an eligible rule. -/
theorem rewriteRules_getElem_eligible (bdd : String) (rules : List SrcRule)
    (out : List Rule) (h : rewriteRules bdd rules = .ok out) (i : Nat) (t : String)
    (ps rcps : List String) (u : SourceUnit)
    (hi : rules[i]? = some (.withUnit t ps rcps (some u))) (hcr : u.CachedRev ≠ "") :
    out[i]? = some (.cached (specCachedPath bdd u.CachedRev t) t u ps) := by
  induction rules generalizing out i with
  | nil => simp at hi
  | cons r rstl ih =>
    cases h1 : rewriteRule bdd r with
    | error e => simp [rewriteRules, h1] at h
    | ok r2 =>
      cases h2 : rewriteRules bdd rstl with
      | error e => simp [rewriteRules, h1, h2] at h
      | ok rs2 =>
        simp only [rewriteRules, h1, h2, Except.ok.injEq] at h
        subst h
        cases i with
        | zero =>
          simp only [List.getElem?_cons_zero, Option.some.injEq] at hi
          subst hi
          simp only [rewriteRule, if_neg hcr] at h1
          cases hcp : cachedPathFor bdd u.CachedRev t with
          | error e => rw [hcp] at h1; cases h1
          | ok cp =>
            rw [hcp] at h1
            simp only [Except.ok.injEq] at h1
            subst h1
            simp [cachedPathFor_ok_eq_spec bdd u.CachedRev t cp hcp]
        | succ j =>
          simp only [List.getElem?_cons_succ] at hi ⊢
          exact ih rs2 h2 j hi

/-- Splitting the maker loop at an arbitrary point. -/
theorem makeRules_append (ext : VCS) (bdd : String) (c : ConfigTree) (opt : Options)
    (xs ys : List (String × RuleMaker)) (acc : List Rule) :
    makeRules ext bdd c opt (xs ++ ys) acc =
      match makeRules ext bdd c opt xs acc with
      | .error f => .error f
      | .ok acc2 => makeRules ext bdd c opt ys acc2 := by
  induction xs generalizing acc with
  | nil => simp [makeRules]
  | cons x rest ih =>
    obtain ⟨name, r⟩ := x
    cases hr : r c bdd acc opt with
    | error e =>
      simp only [List.cons_append, makeRules, hr]
    | ok rules =>
      simp only [List.cons_append, makeRules, hr]
      cases hrw : (if !opt.NoCache then cacheRewrite ext bdd rules
                   else .ok (rules.map Rule.src)) with
      | error e => rfl
      | ok rules2 => exact ih (acc ++ rules2)

/-- With caching disabled, the maker loop only ever appends externally produced
rules to the accumulator. -/
theorem makeRules_noCache_not_cached (ext : VCS) (bdd : String) (c : ConfigTree)
    (opt : Options) (hnc : opt.NoCache = true) (ms : List (String × RuleMaker))
    (acc out : List Rule) (hacc : ∀ r ∈ acc, r.isCached = false)
    (h : makeRules ext bdd c opt ms acc = .ok out) :
    ∀ r ∈ out, r.isCached = false := by
  induction ms generalizing acc with
  | nil =>
    simp only [makeRules, Except.ok.injEq] at h
    subst h
    exact hacc
  | cons m rest ih =>
    obtain ⟨name, f⟩ := m
    cases h1 : f c bdd acc opt with
    | error e => simp [makeRules, h1] at h
    | ok rules =>
      simp only [makeRules, h1, hnc, Bool.not_true, Bool.false_eq_true, if_false] at h
      refine ih (acc ++ rules.map Rule.src) ?_ h
      intro r hr
      rcases List.mem_append.mp hr with hr | hr
      · exact hacc r hr
      · obtain ⟨r0, _, rfl⟩ := List.mem_map.mp hr
        rfl

/-- A batch containing a rule whose accessor returns a nil unit never rewrites
successfully. -/
theorem rewriteRules_mem_nil_unit (bdd t : String) (ps rcps : List String)
    (rules : List SrcRule) (hmem : SrcRule.withUnit t ps rcps none ∈ rules) :
    exceptIsOk (rewriteRules bdd rules) = false := by
  induction rules with
  | nil => cases hmem
  | cons r rstl ih =>
    cases hmem with
    | head => simp [rewriteRules, rewriteRule, exceptIsOk]
    | tail _ hm =>
      cases h1 : rewriteRule bdd r with
      | error e => simp [rewriteRules, h1, exceptIsOk]
      | ok r2 =>
        have hih := ih hm
        cases h2 : rewriteRules bdd rstl with
        | error e => simp [rewriteRules, h1, h2, exceptIsOk]
        | ok rs2 => rw [h2] at hih; simp [exceptIsOk] at hih

/-- C1: with caching requested, the code is claimed to pass a batch through
unmodified (zero CachedRule instances) whenever no reusable prior revision is
selected, e.g. because revision listing fails. The code does not do this: the
oracle `vcs0` fails revision listing, so the scan selects nothing
(`scanPrevRev vcs0 = ("", [])`), yet the assembled plan replaces the rule whose
source unit has `CachedRev = "R"` by a `cachedRule` copying from "../R/x/y" —
the scan result is computed but never consulted by the replacement loop. -/
theorem createMakefile_caches_despite_no_prior_rev :
    scanPrevRev vcs0 = ("", []) ∧
    CreateMakefile reg3 vcs0 "data" "c1" "git" tree0 optCache =
      .ok ⟨[Rule.src (.basic "all" ["x/y"] []),
            Rule.cached "../R/x/y" "x/y" ⟨"R"⟩ [],
            Rule.src (.basic ".DELETE_ON_ERROR" [] [])]⟩ ∧
    ([Rule.src (.basic "all" ["x/y"] []),
      Rule.cached "../R/x/y" "x/y" ⟨"R"⟩ [],
      Rule.src (.basic ".DELETE_ON_ERROR" [] [])].any Rule.isCached) = true :=
  ⟨rfl, by rfl, rfl⟩

/-- C2 (counterexample): a rule whose source unit has `CachedRev = "R"` but whose
Target "unit.json" is a single segment is not replaced by a CachedRule as the
claim states: the rewrite loop panics on the out-of-range slice `p[0:2]` instead
of producing any output batch. -/
theorem cacheRewrite_single_segment_no_replacement :
    cacheRewrite vcs0 "data/c1" [SrcRule.withUnit "unit.json" [] [] (some ⟨"R"⟩)] =
      .error sliceRangePanic := by rfl

/-- C2 (amended): with `Options.NoCache` false, whenever the cache-rewrite step
(exactly as invoked by `CreateMakefile`) completes without panicking, every rule
whose source unit has a non-empty `CachedRev` is replaced by a `cachedRule`
whose target and prereqs equal the original rule's and whose cached-artifact
path is derived from the original target as the claim describes
(`specCachedPath`): second segment replaced in place when the target has more
than two segments, or its first two segments joined equal the build-data
directory, or its second segment is 40 bytes long; otherwise prefixed with
".." and the cached revision. -/
theorem noCacheFalse_replaces_cachedRev_rules (ext : VCS) (bdd : String) (opt : Options)
    (rules : List SrcRule) (out : List Rule) (i : Nat) (t : String)
    (ps rcps : List String) (u : SourceUnit)
    (hnc : opt.NoCache = false)
    (h : (if !opt.NoCache then cacheRewrite ext bdd rules
          else .ok (rules.map Rule.src)) = .ok out)
    (hi : rules[i]? = some (.withUnit t ps rcps (some u)))
    (hcr : u.CachedRev ≠ "") :
    out[i]? = some (.cached (specCachedPath bdd u.CachedRev t) t u ps) := by
  rw [hnc] at h
  simp only [Bool.not_false, if_true] at h
  exact rewriteRules_getElem_eligible bdd rules out h i t ps rcps u hi hcr

/-- C2 (witness): at a concrete batch the replacement produces the cachedRule
with the dot-dot prefixed path. -/
theorem noCacheFalse_replaces_cachedRev_rules_witness :
    ([Rule.cached "../R/x/y" "x/y" ⟨"R"⟩ []] : List Rule)[0]? =
      some (.cached (specCachedPath "data/c1" "R" "x/y") "x/y" ⟨"R"⟩ []) :=
  noCacheFalse_replaces_cachedRev_rules vcs0 "data/c1" optCache
    [SrcRule.withUnit "x/y" [] ["gen"] (some ⟨"R"⟩)]
    [Rule.cached "../R/x/y" "x/y" ⟨"R"⟩ []] 0 "x/y" [] ["gen"] ⟨"R"⟩
    rfl (by rfl) rfl (by simp)

/-- C3: a cache rewrite that completes changes neither the list of targets (set
and order included) nor any rule's prereqs; only recipes can differ. -/
theorem cacheRewrite_preserves_targets_prereqs (ext : VCS) (bdd : String)
    (rules : List SrcRule) (out : List Rule)
    (h : cacheRewrite ext bdd rules = .ok out) :
    out.map Rule.Target = rules.map SrcRule.Target ∧
      out.map Rule.Prereqs = rules.map SrcRule.Prereqs :=
  rewriteRules_map_Target_Prereqs bdd rules out h

/-- C3 (witness): concrete batch with a replaced and an untouched rule. -/
theorem cacheRewrite_preserves_targets_prereqs_witness :
    ([Rule.cached "../R/x/y" "x/y" ⟨"R"⟩ ["p1"], Rule.src (.basic "q" ["p2"] ["r"])].map
        Rule.Target =
      [SrcRule.withUnit "x/y" ["p1"] ["gen"] (some ⟨"R"⟩),
        SrcRule.basic "q" ["p2"] ["r"]].map SrcRule.Target) ∧
    ([Rule.cached "../R/x/y" "x/y" ⟨"R"⟩ ["p1"], Rule.src (.basic "q" ["p2"] ["r"])].map
        Rule.Prereqs =
      [SrcRule.withUnit "x/y" ["p1"] ["gen"] (some ⟨"R"⟩),
        SrcRule.basic "q" ["p2"] ["r"]].map SrcRule.Prereqs) :=
  cacheRewrite_preserves_targets_prereqs vcs0 "data/c1"
    [SrcRule.withUnit "x/y" ["p1"] ["gen"] (some ⟨"R"⟩), SrcRule.basic "q" ["p2"] ["r"]]
    [Rule.cached "../R/x/y" "x/y" ⟨"R"⟩ ["p1"], Rule.src (.basic "q" ["p2"] ["r"])]
    (by rfl)

/-- C4: with `Options.NoCache` true, a successful `CreateMakefile` run yields a
plan containing zero `cachedRule` instances, for every registry, every oracle
(prior revisions and build outputs), and every `CachedRev` the makers' rules
carry. -/
theorem createMakefile_noCache_no_cachedRules (reg : Registry) (ext : VCS)
    (bdn cid vt : String) (c : ConfigTree) (opt : Options) (mf : Makefile)
    (hnc : opt.NoCache = true)
    (h : CreateMakefile reg ext bdn cid vt c opt = .ok mf) :
    mf.Rules.any Rule.isCached = false := by
  simp only [CreateMakefile] at h
  cases hm : makeRules ext (filepathJoin bdn cid) c opt
      (reg.ruleMakerNames.zip reg.orderedRuleMakers) [] with
  | error f => rw [hm] at h; cases h
  | ok allRules =>
    rw [hm] at h
    simp only [Except.ok.injEq] at h
    subst h
    have hall := makeRules_noCache_not_cached ext (filepathJoin bdn cid) c opt hnc
      (reg.ruleMakerNames.zip reg.orderedRuleMakers) [] allRules (by intro r hr; cases hr) hm
    simp only [List.any_eq_false]
    intro r hr
    simp only [List.mem_cons, List.mem_append, List.mem_singleton] at hr
    rcases hr with (rfl | hr) | (rfl | hr)
    · simp [Rule.isCached]
    · simp [hall r hr]
    · simp [Rule.isCached]
    · cases hr

/-- C4 (witness): the `reg3` maker carries `CachedRev = "R"`, yet with NoCache
the plan has no cachedRule. -/
theorem createMakefile_noCache_no_cachedRules_witness :
    mfNC.Rules.any Rule.isCached = false :=
  createMakefile_noCache_no_cachedRules reg3 vcs0 "data" "c1" "git" tree0 optNoCache
    mfNC rfl (by rfl)

/-- C5: a successful run returns exactly the synthetic "all" umbrella rule first
(prereqs = the targets of the makers' rules, in production order), then the
makers' rules in production order, then the ".DELETE_ON_ERROR" marker rule
last. -/
theorem createMakefile_plan_shape (reg : Registry) (ext : VCS) (bdn cid vt : String)
    (c : ConfigTree) (opt : Options) (body : List Rule)
    (h : makeRules ext (filepathJoin bdn cid) c opt
        (reg.ruleMakerNames.zip reg.orderedRuleMakers) [] = .ok body) :
    CreateMakefile reg ext bdn cid vt c opt =
      .ok ⟨Rule.src (.basic "all" (body.map Rule.Target) []) :: body ++
        [Rule.src (.basic ".DELETE_ON_ERROR" [] [])]⟩ := by
  simp only [CreateMakefile, h]

/-- C5 (witness): concrete plan framing around the `reg3` maker's batch. -/
theorem createMakefile_plan_shape_witness :
    CreateMakefile reg3 vcs0 "data" "c1" "git" tree0 optCache =
      .ok ⟨Rule.src (.basic "all"
            ([Rule.cached "../R/x/y" "x/y" ⟨"R"⟩ []].map Rule.Target) []) ::
          [Rule.cached "../R/x/y" "x/y" ⟨"R"⟩ []] ++
          [Rule.src (.basic ".DELETE_ON_ERROR" [] [])]⟩ :=
  createMakefile_plan_shape reg3 vcs0 "data" "c1" "git" tree0 optCache
    [Rule.cached "../R/x/y" "x/y" ⟨"R"⟩ []] (by rfl)

/-- C6: when a maker returns an error, CreateMakefile returns no plan but an
error annotated with the failing maker's registered name; the result is the same
for every list of later makers, so none of them is invoked. -/
theorem maker_error_aborts (reg : Registry) (ext : VCS) (bdn cid vt : String)
    (c : ConfigTree) (opt : Options) (pre : List (String × RuleMaker)) (name : String)
    (f : RuleMaker) (post : List (String × RuleMaker)) (acc : List Rule) (e : String)
    (hzip : reg.ruleMakerNames.zip reg.orderedRuleMakers = pre ++ (name, f) :: post)
    (hpre : makeRules ext (filepathJoin bdn cid) c opt pre [] = .ok acc)
    (hf : f c (filepathJoin bdn cid) acc opt = .error e) :
    CreateMakefile reg ext bdn cid vt c opt =
      .error (.goError ("rule maker " ++ name ++ ": " ++ e)) := by
  simp only [CreateMakefile, hzip, makeRules_append, hpre]
  simp only [makeRules, hf]

/-- C6 (witness): the failing maker "bad" aborts the whole run with its name in
the error. -/
theorem maker_error_aborts_witness :
    CreateMakefile reg2 vcs0 "data" "c1" "git" tree0 optCache =
      .error (.goError ("rule maker " ++ "bad" ++ ": " ++ "boom")) :=
  maker_error_aborts reg2 vcs0 "data" "c1" "git" tree0 optCache [] "bad" failMaker []
    [] "boom" rfl rfl rfl

/-- C7: the claim (and the function's own doc comment) says registering under an
empty name panics; the code has no such check: registering the empty name in an
empty registry succeeds. -/
theorem registerRuleMaker_accepts_empty_name :
    exceptIsOk (RegisterRuleMaker reg0 "" (some noMaker)) = true := rfl

/-- C8: RegisterRuleMaker panics (errors) whenever the name is already
registered, and whenever the rule maker is nil — in the latter case whatever the
name is. -/
theorem registerRuleMaker_dup_or_nil_panics (reg : Registry) (name : String)
    (r : Option RuleMaker) :
    ((reg.RuleMakers.lookup name).isSome = true →
      RegisterRuleMaker reg name r =
        .error ("build: Register called twice for target lister " ++ name)) ∧
    exceptIsOk (RegisterRuleMaker reg name none) = false := by
  constructor
  · intro hd
    simp [RegisterRuleMaker, hd]
  · by_cases hd : (reg.RuleMakers.lookup name).isSome
    · simp [RegisterRuleMaker, hd, exceptIsOk]
    · simp only [RegisterRuleMaker, Bool.not_eq_true] at hd
      simp [RegisterRuleMaker, hd, exceptIsOk]

/-- C8 (witness): duplicate registration of "a" errors with the dup message, and
nil registration errors. -/
theorem registerRuleMaker_dup_or_nil_panics_witness :
    (RegisterRuleMaker reg1 "a" (some noMaker) =
      .error ("build: Register called twice for target lister " ++ "a")) ∧
    exceptIsOk (RegisterRuleMaker reg1 "x" none) = false :=
  ⟨(registerRuleMaker_dup_or_nil_panics reg1 "a" (some noMaker)).1 rfl,
    (registerRuleMaker_dup_or_nil_panics reg1 "x" (some noMaker)).2⟩

/-- C9: for a rule with non-empty CachedRev, the path-rewrite step panics with
the slice-range error exactly when the split target has a single segment (the
target contains no slash), and always succeeds once the target has at least two
segments. -/
theorem rewrite_single_segment_panics (bdd t : String) (ps rcps : List String)
    (u : SourceUnit) (hcr : u.CachedRev ≠ "") :
    ((splitSlash t).length = 1 →
      rewriteRule bdd (.withUnit t ps rcps (some u)) = .error sliceRangePanic) ∧
    (2 ≤ (splitSlash t).length →
      exceptIsOk (rewriteRule bdd (.withUnit t ps rcps (some u))) = true) := by
  constructor
  · intro h1
    simp [rewriteRule, hcr, cachedPathFor_single_segment bdd u.CachedRev t h1]
  · intro h2
    have htot := cachedPathFor_total bdd u.CachedRev t h2
    simp only [rewriteRule, if_neg hcr]
    cases hcp : cachedPathFor bdd u.CachedRev t with
    | error e => rw [hcp] at htot; simp [exceptIsOk] at htot
    | ok cp => rfl

/-- C9 (witness): the single-segment target "unit.json" panics; the two-segment
target "x/y" rewrites successfully. -/
theorem rewrite_single_segment_panics_witness :
    rewriteRule "data/c1" (.withUnit "unit.json" [] [] (some ⟨"R"⟩)) =
      .error sliceRangePanic ∧
    exceptIsOk (rewriteRule "data/c1" (.withUnit "x/y" [] [] (some ⟨"R"⟩))) = true :=
  ⟨(rewrite_single_segment_panics "data/c1" "unit.json" [] [] ⟨"R"⟩ (by simp)).1 rfl,
    (rewrite_single_segment_panics "data/c1" "x/y" [] [] ⟨"R"⟩ (by simp)).2 (by rfl)⟩

/-- C10: a rule that implements the SourceUnit accessor but returns a nil unit
makes the replacement loop dereference nil and panic: the per-rule step yields
the nil-dereference panic, and any batch containing such a rule never rewrites
successfully. -/
theorem nil_sourceUnit_panics (ext : VCS) (bdd t : String) (ps rcps : List String)
    (rules : List SrcRule) (hmem : SrcRule.withUnit t ps rcps none ∈ rules) :
    rewriteRule bdd (.withUnit t ps rcps none) = .error nilUnitPanic ∧
    exceptIsOk (cacheRewrite ext bdd rules) = false :=
  ⟨rfl, rewriteRules_mem_nil_unit bdd t ps rcps rules hmem⟩

/-- C10 (witness): a concrete batch holding a nil-unit rule panics. -/
theorem nil_sourceUnit_panics_witness :
    rewriteRule "data/c1" (.withUnit "x/y" [] [] none) = .error nilUnitPanic ∧
    exceptIsOk (cacheRewrite vcs0 "data/c1"
      [SrcRule.basic "q" [] [], SrcRule.withUnit "x/y" [] [] none]) = false :=
  nil_sourceUnit_panics vcs0 "data/c1" "x/y" [] []
    [SrcRule.basic "q" [] [], SrcRule.withUnit "x/y" [] [] none] (by simp)
